import Mathlib

/-!
A shallow embedding of the AgriLink market feed service (`src/main.py`).

The Python service keeps a global in-memory list `market_feed` of
listings and exposes four HTTP handlers: `health_check` (`GET /`),
`get_market_feed` (`GET /market/feed`), `create_listing`
(`POST /market/create_listing`, 201) and `buy_item` (`POST /market/buy`).
State is embedded by explicit passing of the feed list; the
nondeterministic inputs of the Python code (the `uuid.uuid4()` draws and
the `datetime.utcnow()` clock) are passed as explicit parameters.
-/

namespace AgriLink

/-- The `Literal['supply', 'demand']` type of the `type` field of
`MarketListing`. -/
inductive LType where
  | supply
  | demand
deriving DecidableEq

/-- `class MarketListing(BaseModel)` from `src/main.py`.  `qty` and
`price` are Python floats used only for storage and comparison here,
embedded as `Rat`; `created_at` is the `datetime.utcnow()` default
applied at construction time, embedded as a `Nat` clock value supplied
by the caller. -/
structure MarketListing where
  id : String
  item : String
  qty : Rat
  unit : String
  zone : String
  price : Rat
  seller : String
  time : String
  type : LType
  created_at : Nat
deriving DecidableEq

/-- `class ListingRequest(BaseModel)` (the `unit` field defaults to
"kg"). -/
structure ListingRequest where
  farmer_id : String
  item_name : String
  quantity : Rat
  unit : String := "kg"
  location_zone : String
  price_total : Rat
deriving DecidableEq

/-- `class BuyRequest(BaseModel)`. -/
structure BuyRequest where
  buyer_id : String
  listing_id : String
deriving DecidableEq

/-- The static seed value of the global `market_feed` list.  The three
`created_at` timestamps come from the import-time `datetime.utcnow()`
calls and are passed in as parameters `t1 t2 t3`. -/
def market_feed (t1 t2 t3 : Nat) : List MarketListing :=
  [ { id := "1", item := "Onions", qty := 50, unit := "Baskets",
      zone := "North-West (Kano)", price := 8500, seller := "Sani Farms",
      time := "2m ago", type := .supply, created_at := t1 },
    { id := "2", item := "Rice 50kg", qty := 200, unit := "Bags",
      zone := "Lagos", price := 65000, seller := "Mega Stores",
      time := "10m ago", type := .demand, created_at := t2 },
    { id := "3", item := "Yams", qty := 400, unit := "Tubers",
      zone := "Benue", price := 1200, seller := "Mama Nkechi",
      time := "45m ago", type := .supply, created_at := t3 } ]

/-- The identifiers of the listings currently in the feed, in feed
order. -/
def feedIds (feed : List MarketListing) : List String :=
  feed.map MarketListing.id

/-- `GET /` handler `health_check`.  It formats the clock into a
liveness payload and never reads or writes `market_feed`. -/
def health_check (now : String) : String × String × String :=
  ("neural_link_active", now, "West-Africa-1")

/-- `GET /market/feed` handler `get_market_feed`: `return market_feed`,
with no mutation, pagination or filtering. -/
def get_market_feed (feed : List MarketListing) : List MarketListing :=
  feed

/-- The JSON body returned by `create_listing`, together with the
declared HTTP status code (`status_code=status.HTTP_201_CREATED`). -/
structure CreateResponse where
  http_code : Nat
  status : String
  listing_id : String
  message : String
deriving DecidableEq

/-- `POST /market/create_listing` handler `create_listing`.  The fresh
`str(uuid.uuid4())` is the parameter `new_id` and the construction-time
clock is `now`; the handler builds the new listing from the request
fields with `type="supply"` and `time="Just Now"`, inserts it at index 0
of the feed, and returns the identifier with a 201 response. -/
def create_listing (feed : List MarketListing) (request : ListingRequest)
    (new_id : String) (now : Nat) : List MarketListing × CreateResponse :=
  let new_listing : MarketListing :=
    { id := new_id, item := request.item_name, qty := request.quantity,
      unit := request.unit, zone := request.location_zone,
      price := request.price_total, seller := request.farmer_id,
      time := "Just Now", type := .supply, created_at := now }
  (new_listing :: feed,
   { http_code := 201, status := "created", listing_id := new_listing.id,
     message := "Harvest signal broadcasted to the neural network." })

/-- `dispatch_id = f"TRUCK-{uuid.uuid4().hex[:6].upper()}"`.  The 32
lowercase-hexadecimal characters of `uuid4().hex` are the
nondeterministic input `uuid_hex`. -/
def dispatch_token (uuid_hex : List Char) : List Char :=
  "TRUCK-".toList ++ (uuid_hex.take 6).map Char.toUpper

/-- Outcome of `POST /market/buy`: the two raised `HTTPException`s, or
the 200 payload.  On success the Python handler interpolates fields of
the bought listing into the confirmation message and returns the
dispatch token; the embedding carries the listing and the token. -/
inductive BuyOutcome where
  | notFound
  | invalidState
  | success (listing : MarketListing) (dispatch_id : List Char)
deriving DecidableEq

/-- The HTTP status code of each `buy_item` outcome: 404 for the
"Asset not found" exception, 400 for the "Cannot purchase a Demand
request" exception, 200 on success. -/
def BuyOutcome.http_code : BuyOutcome → Nat
  | .notFound => 404
  | .invalidState => 400
  | .success _ _ => 200

/-- Whether a `buy_item` outcome is the 200 success payload. -/
def BuyOutcome.isSuccess : BuyOutcome → Bool
  | .success _ _ => true
  | _ => false

/-- `POST /market/buy` handler `buy_item`: linear scan for the first
listing whose `id` equals `request.listing_id` (`next(...)`), 404 if
none, 400 if its type is not `supply`, otherwise
`market_feed.remove(listing)` (removal of the first element equal to
the found listing) and a dispatch token from the fresh UUID draw
`uuid_hex`. -/
def buy_item (feed : List MarketListing) (request : BuyRequest)
    (uuid_hex : List Char) : BuyOutcome × List MarketListing :=
  match feed.find? (fun x => x.id == request.listing_id) with
  | none => (.notFound, feed)
  | some listing =>
    if listing.type ≠ LType.supply then
      (.invalidState, feed)
    else
      (.success listing (dispatch_token uuid_hex), feed.erase listing)

/-- One externally triggered operation of the service, with its
nondeterministic inputs. -/
inductive Op where
  | health (now : String)
  | listFeed
  | create (request : ListingRequest) (new_id : String) (now : Nat)
  | buy (request : BuyRequest) (uuid_hex : List Char)

/-- The feed state after running one operation. -/
def applyOp (feed : List MarketListing) : Op → List MarketListing
  | .health _ => feed
  | .listFeed => get_market_feed feed
  | .create r nid now => (create_listing feed r nid now).1
  | .buy r u => (buy_item feed r u).2

/-- If the linear scan finds `l`, the feed splits as
`pre ++ l :: post` with no identifier match in `pre`, and Python's
`list.remove` (first element equal to `l`) deletes exactly that
occurrence, leaving `pre ++ post`. -/
theorem find_erase_split (feed : List MarketListing) (lid : String)
    (l : MarketListing)
    (h : feed.find? (fun x => x.id == lid) = some l) :
    ∃ pre post, feed = pre ++ l :: post ∧ feed.erase l = pre ++ post ∧
      ∀ x ∈ pre, x.id ≠ lid := by
  induction feed with
  | nil => simp at h
  | cons b t ih =>
    by_cases hb : b.id = lid
    · have hbl : b = l := by
        rw [List.find?_cons_of_pos _ (by simp [hb])] at h
        exact Option.some.inj h
      exact ⟨[], t, by simp [hbl], by simp [hbl, List.erase_cons_head], by simp⟩
    · rw [List.find?_cons_of_neg _ (by simp [hb])] at h
      obtain ⟨pre, post, h1, h2, h3⟩ := ih h
      have hlid : l.id = lid := by
        have := List.find?_some h
        simpa using this
      have hbne : b ≠ l := fun hc => hb (hc ▸ hlid)
      refine ⟨b :: pre, post, by simp [h1], ?_, ?_⟩
      · rw [List.erase_cons_tail (by simpa using hbne), h2]
        simp
      · intro x hx
        rcases List.mem_cons.mp hx with hx | hx
        · exact hx ▸ hb
        · exact h3 x hx

/-- In a feed with pairwise-distinct identifiers, the linear scan for
the identifier of a member listing finds exactly that listing. -/
theorem find?_of_mem_nodup (feed : List MarketListing) (l : MarketListing)
    (hn : (feedIds feed).Nodup) (hm : l ∈ feed) :
    feed.find? (fun x => x.id == l.id) = some l := by
  induction feed with
  | nil => cases hm
  | cons b t ih =>
    rcases List.mem_cons.mp hm with hm | hm
    · subst hm
      exact List.find?_cons_of_pos _ (by simp)
    · have hn' := hn
      simp only [feedIds, List.map_cons, List.nodup_cons] at hn'
      have hbne : b.id ≠ l.id := fun hc =>
        hn'.1 (hc ▸ List.mem_map_of_mem MarketListing.id hm)
      rw [List.find?_cons_of_neg _ (by simp [hbne])]
      exact ih hn'.2 hm

/-- C1: `get_market_feed` returns exactly the current feed, with no
pagination and no filtering, and immediately after `create_listing`
succeeds the newly created listing is the head of the feed returned by
`get_market_feed` (LIFO: each create prepends). -/
theorem list_feed_exact_and_lifo (feed : List MarketListing)
    (request : ListingRequest) (new_id : String) (now : Nat) :
    get_market_feed feed = feed ∧
    get_market_feed (create_listing feed request new_id now).1 =
      { id := new_id, item := request.item_name, qty := request.quantity,
        unit := request.unit, zone := request.location_zone,
        price := request.price_total, seller := request.farmer_id,
        time := "Just Now", type := .supply, created_at := now } :: feed :=
  ⟨rfl, rfl⟩

/-- C5: `create_listing` assigns the fresh identifier, fixes the kind to
`supply` and the recency label to "Just Now", copies every request field
into the new listing, inserts it at the head of the feed, and returns
the new identifier in a 201 response. -/
theorem create_listing_spec (feed : List MarketListing)
    (request : ListingRequest) (new_id : String) (now : Nat) :
    create_listing feed request new_id now =
      ({ id := new_id, item := request.item_name, qty := request.quantity,
         unit := request.unit, zone := request.location_zone,
         price := request.price_total, seller := request.farmer_id,
         time := "Just Now", type := .supply, created_at := now } :: feed,
       { http_code := 201, status := "created", listing_id := new_id,
         message := "Harvest signal broadcasted to the neural network." }) :=
  rfl

/-- C9: the outcome and the resulting feed of `buy_item` depend only on
the feed and the `listing_id` of the request: two requests with the same
`listing_id` but different `buyer_id` produce identical results. -/
theorem buy_ignores_buyer_id (feed : List MarketListing)
    (r1 r2 : BuyRequest) (uuid_hex : List Char)
    (h : r1.listing_id = r2.listing_id) :
    buy_item feed r1 uuid_hex = buy_item feed r2 uuid_hex := by
  simp only [buy_item, h]

/-- Witness for C9 at a concrete feed: "alice" and "bob" buying listing
"1" of the seed feed get the same outcome and feed. -/
theorem buy_ignores_buyer_id_witness :
    buy_item (market_feed 0 0 0)
        { buyer_id := "alice", listing_id := "1" } [] =
      buy_item (market_feed 0 0 0)
        { buyer_id := "bob", listing_id := "1" } [] :=
  buy_ignores_buyer_id (market_feed 0 0 0)
    { buyer_id := "alice", listing_id := "1" }
    { buyer_id := "bob", listing_id := "1" } [] rfl

/-- C2: `buy_item` fails with `notFound` (HTTP code 404) iff no listing
in the feed has the requested identifier; consequently, in a feed with
pairwise-distinct identifiers, after a successful buy a second buy with
the same identifier returns `notFound`. -/
theorem buy_notFound_iff (feed : List MarketListing) (request : BuyRequest)
    (uuid_hex : List Char) :
    ((buy_item feed request uuid_hex).1 = .notFound ↔
      ∀ x ∈ feed, x.id ≠ request.listing_id) ∧
    BuyOutcome.http_code .notFound = 404 ∧
    ((feedIds feed).Nodup →
      ((buy_item feed request uuid_hex).1).isSuccess = true →
      ∀ r2 u2, BuyRequest.listing_id r2 = request.listing_id →
        (buy_item (buy_item feed request uuid_hex).2 r2 u2).1 =
          .notFound) := by
  refine ⟨?_, rfl, ?_⟩ <;>
    rcases hf : feed.find? (fun x => x.id == request.listing_id)
      with _ | l
  · simp only [buy_item, hf]
    rw [List.find?_eq_none] at hf
    constructor
    · intro _ x hx
      simpa using hf x hx
    · intro _
      trivial
  · have hlid : l.id = request.listing_id := by
      simpa using List.find?_some hf
    have hmem : l ∈ feed := List.mem_of_find?_eq_some hf
    simp only [buy_item, hf]
    by_cases ht : l.type = LType.supply
    · rw [if_neg (by simp [ht])]
      exact ⟨fun hco => by simp at hco, fun hall => (hall l hmem hlid).elim⟩
    · rw [if_pos (by simp [ht])]
      exact ⟨fun hco => by simp at hco, fun hall => (hall l hmem hlid).elim⟩
  · simp only [buy_item, hf]
    intro _ hco
    simp [BuyOutcome.isSuccess] at hco
  · have hlid : l.id = request.listing_id := by
      simpa using List.find?_some hf
    simp only [buy_item, hf]
    by_cases ht : l.type = LType.supply
    · rw [if_neg (by simp [ht])]
      intro hn _ r2 u2 hr2
      obtain ⟨pre, post, h1, h2, h3⟩ :=
        find_erase_split feed request.listing_id l hf
      have hpost : ∀ x ∈ post, x.id ≠ request.listing_id := by
        intro x hx hc
        have hnd : (feedIds feed).Nodup := hn
        rw [h1] at hnd
        simp only [feedIds, List.map_append, List.map_cons] at hnd
        have h4 := (List.nodup_cons.mp hnd.of_append_right).1
        have h5 : x.id ∈ post.map MarketListing.id :=
          List.mem_map_of_mem MarketListing.id hx
        rw [hc, ← hlid] at h5
        exact h4 h5
      have hnone : (feed.erase l).find?
          (fun x => x.id == BuyRequest.listing_id r2) = none := by
        rw [h2, hr2]
        refine List.find?_eq_none.mpr ?_
        intro x hx
        rcases List.mem_append.mp hx with hx | hx
        · simp [h3 x hx]
        · simp [hpost x hx]
      simp only [buy_item, hnone]
    · rw [if_pos (by simp [ht])]
      intro _ hco
      simp [BuyOutcome.isSuccess] at hco

/-- Witness for C2: buying the absent identifier "7" from the seed feed
returns `notFound`, and re-buying "1" right after a successful buy of
"1" returns `notFound`. -/
theorem buy_notFound_iff_witness :
    (buy_item (market_feed 0 0 0)
        { buyer_id := "b", listing_id := "7" } []).1 = .notFound ∧
    (buy_item
        (buy_item (market_feed 0 0 0)
          { buyer_id := "b", listing_id := "1" } []).2
        { buyer_id := "c", listing_id := "1" } []).1 = .notFound := by
  refine ⟨(buy_notFound_iff (market_feed 0 0 0)
    { buyer_id := "b", listing_id := "7" } []).1.mpr (by decide), ?_⟩
  exact (buy_notFound_iff (market_feed 0 0 0)
      { buyer_id := "b", listing_id := "1" } []).2.2 (by decide) (by decide)
    { buyer_id := "c", listing_id := "1" } [] rfl

/-- C3: buying a demand listing by its identifier (in a feed whose
identifiers are pairwise distinct) returns `invalidState` (HTTP code
400) and leaves the feed completely unchanged. -/
theorem buy_demand_invalid (feed : List MarketListing)
    (request : BuyRequest) (uuid_hex : List Char) (l : MarketListing)
    (hn : (feedIds feed).Nodup) (hm : l ∈ feed)
    (hid : l.id = request.listing_id) (hd : l.type = LType.demand) :
    buy_item feed request uuid_hex = (.invalidState, feed) ∧
    BuyOutcome.http_code .invalidState = 400 := by
  have hf : feed.find? (fun x => x.id == request.listing_id) = some l := by
    rw [← hid]
    exact find?_of_mem_nodup feed l hn hm
  refine ⟨?_, rfl⟩
  simp [buy_item, hf, hd]

/-- Witness for C3: buying the seed demand listing "2" returns
`invalidState` and the seed feed is unchanged. -/
theorem buy_demand_invalid_witness :
    buy_item (market_feed 0 0 0)
        { buyer_id := "b", listing_id := "2" } [] =
      (.invalidState, market_feed 0 0 0) ∧
    BuyOutcome.http_code .invalidState = 400 :=
  buy_demand_invalid (market_feed 0 0 0)
    { buyer_id := "b", listing_id := "2" } []
    { id := "2", item := "Rice 50kg", qty := 200, unit := "Bags",
      zone := "Lagos", price := 65000, seller := "Mega Stores",
      time := "10m ago", type := .demand, created_at := 0 }
    (by decide) (by decide) rfl rfl

/-- C4: a successful `buy_item` removes exactly the listing found for
the requested identifier, keeping every other listing with all its
fields intact and in the same relative order; an unsuccessful buy leaves
the feed unchanged, `get_market_feed` returns it unmodified, and
`create_listing` only prepends, never touching existing listings. -/
theorem buy_removes_exactly_one (feed : List MarketListing)
    (request : BuyRequest) (uuid_hex : List Char) :
    (∀ l d, (buy_item feed request uuid_hex).1 = .success l d →
      l.id = request.listing_id ∧
      ∃ pre post, feed = pre ++ l :: post ∧
        (buy_item feed request uuid_hex).2 = pre ++ post ∧
        ∀ x ∈ pre, x.id ≠ request.listing_id) ∧
    ((buy_item feed request uuid_hex).1.isSuccess = false →
      (buy_item feed request uuid_hex).2 = feed) ∧
    (∀ r nid now, ∃ nl,
      (create_listing feed r nid now).1 = nl :: feed) ∧
    get_market_feed feed = feed := by
  refine ⟨?_, ?_, fun r nid now => ⟨_, rfl⟩, rfl⟩ <;>
    rcases hf : feed.find? (fun x => x.id == request.listing_id)
      with _ | l
  · simp only [buy_item, hf]
    intro l d hco
    simp at hco
  · have hlid : l.id = request.listing_id := by
      simpa using List.find?_some hf
    simp only [buy_item, hf]
    by_cases ht : l.type = LType.supply
    · rw [if_neg (by simp [ht])]
      intro l' d' hco
      obtain ⟨hl, _⟩ := BuyOutcome.success.inj hco
      subst hl
      obtain ⟨pre, post, h1, h2, h3⟩ :=
        find_erase_split feed request.listing_id l hf
      exact ⟨hlid, pre, post, h1, h2, h3⟩
    · rw [if_pos (by simp [ht])]
      intro l' d' hco
      simp at hco
  · simp only [buy_item, hf]
    intro _
    trivial
  · simp only [buy_item, hf]
    by_cases ht : l.type = LType.supply
    · rw [if_neg (by simp [ht])]
      intro hco
      simp [BuyOutcome.isSuccess] at hco
    · rw [if_pos (by simp [ht])]
      intro _
      rfl

/-- Witness for C4: buying "1" from the seed feed removes exactly the
Onions listing, leaving the other two seed listings in order. -/
theorem buy_removes_exactly_one_witness :
    ({ id := "1", item := "Onions", qty := 50, unit := "Baskets",
       zone := "North-West (Kano)", price := 8500, seller := "Sani Farms",
       time := "2m ago", type := .supply,
       created_at := 0 } : MarketListing).id = "1" ∧
    ∃ pre post, market_feed 0 0 0 = pre ++
        { id := "1", item := "Onions", qty := 50, unit := "Baskets",
          zone := "North-West (Kano)", price := 8500,
          seller := "Sani Farms", time := "2m ago", type := .supply,
          created_at := 0 } :: post ∧
      (buy_item (market_feed 0 0 0)
          { buyer_id := "b", listing_id := "1" } []).2 = pre ++ post ∧
      ∀ x ∈ pre, x.id ≠ "1" :=
  (buy_removes_exactly_one (market_feed 0 0 0)
      { buyer_id := "b", listing_id := "1" } []).1
    { id := "1", item := "Onions", qty := 50, unit := "Baskets",
      zone := "North-West (Kano)", price := 8500, seller := "Sani Farms",
      time := "2m ago", type := .supply, created_at := 0 }
    "TRUCK-".toList (by decide)

/-- The feed after any `buy_item` call is a sublist of the feed before:
either unchanged (404/400) or with the bought listing erased (200). -/
theorem buy_snd_sublist (feed : List MarketListing) (request : BuyRequest)
    (uuid_hex : List Char) :
    (buy_item feed request uuid_hex).2.Sublist feed := by
  rcases hf : feed.find? (fun x => x.id == request.listing_id)
    with _ | l
  · simp only [buy_item, hf]
    exact List.Sublist.refl feed
  · simp only [buy_item, hf]
    by_cases ht : l.type = LType.supply
    · rw [if_neg (by simp [ht])]
      exact List.erase_sublist l feed
    · rw [if_pos (by simp [ht])]

/-- C6 counterexample: `create_listing` performs no sign validation
(the Pydantic schema only checks that `quantity` and `price_total` are
floats), so a request with negative quantity and price puts a listing
with negative `qty` and negative `price` into the feed. -/
theorem create_listing_negative_counterexample :
    ∃ l ∈ (create_listing (market_feed 0 0 0)
        { farmer_id := "f", item_name := "Maize", quantity := -1,
          unit := "kg", location_zone := "Kano",
          price_total := -5 } "x" 0).1,
      l.qty < 0 ∧ l.price < 0 := by decide

/-- C6 amended: the three seed listings have non-negative quantity and
price, and the feed keeps every quantity and price non-negative provided
every create request carries a non-negative quantity and total price
(`create_listing` itself copies them unvalidated); `buy_item` never
changes the fields of a surviving listing. -/
theorem feed_nonneg_preserved (t1 t2 t3 : Nat)
    (feed : List MarketListing) (r : ListingRequest) (nid : String)
    (now : Nat) (br : BuyRequest) (u : List Char) :
    (∀ l ∈ market_feed t1 t2 t3, 0 ≤ l.qty ∧ 0 ≤ l.price) ∧
    ((∀ l ∈ feed, 0 ≤ l.qty ∧ 0 ≤ l.price) → 0 ≤ r.quantity →
      0 ≤ r.price_total →
      ∀ l ∈ (create_listing feed r nid now).1, 0 ≤ l.qty ∧ 0 ≤ l.price) ∧
    ((∀ l ∈ feed, 0 ≤ l.qty ∧ 0 ≤ l.price) →
      ∀ l ∈ (buy_item feed br u).2, 0 ≤ l.qty ∧ 0 ≤ l.price) := by
  refine ⟨?_, ?_, ?_⟩
  · intro l hl
    fin_cases hl <;> exact ⟨by norm_num, by norm_num⟩
  · intro h hq hp l hl
    simp only [create_listing, List.mem_cons] at hl
    rcases hl with rfl | hl
    · exact ⟨hq, hp⟩
    · exact h l hl
  · intro h l hl
    exact h l ((buy_snd_sublist feed br u).mem hl)

/-- Witness for the amended C6: one non-negative create request on the
seed feed keeps every quantity and price non-negative. -/
theorem feed_nonneg_preserved_witness :
    ∀ l ∈ (create_listing (market_feed 0 0 0)
        { farmer_id := "f", item_name := "Beans", quantity := 3,
          unit := "kg", location_zone := "Jos", price_total := 900 }
        "x" 0).1, 0 ≤ l.qty ∧ 0 ≤ l.price :=
  (feed_nonneg_preserved 0 0 0 (market_feed 0 0 0)
      { farmer_id := "f", item_name := "Beans", quantity := 3,
        unit := "kg", location_zone := "Jos", price_total := 900 }
      "x" 0 { buyer_id := "b", listing_id := "1" } []).2.1
    (by decide) (by decide) (by decide)

/-- The sixteen lowercase hexadecimal digits: the alphabet of
`uuid4().hex`. -/
def lowerHexDigits : List Char :=
  "0123456789abcdef".toList

/-- The sixteen uppercase hexadecimal digits. -/
def upperHexDigits : List Char :=
  "0123456789ABCDEF".toList

/-- Uppercasing any lowercase hexadecimal digit yields an uppercase
hexadecimal digit. -/
theorem toUpper_lowerHex :
    ∀ c ∈ lowerHexDigits, c.toUpper ∈ upperHexDigits := by decide

/-- C7: for every draw of `uuid4().hex` (32 lowercase hexadecimal
characters), the dispatch token is the fixed "TRUCK-" label followed by
exactly six uppercase hexadecimal characters. -/
theorem dispatch_token_shape (uuid_hex : List Char)
    (hlen : uuid_hex.length = 32)
    (hhex : ∀ c ∈ uuid_hex, c ∈ lowerHexDigits) :
    ∃ s, dispatch_token uuid_hex = "TRUCK-".toList ++ s ∧
      s.length = 6 ∧ ∀ c ∈ s, c ∈ upperHexDigits := by
  refine ⟨(uuid_hex.take 6).map Char.toUpper, rfl, ?_, ?_⟩
  · simp [hlen]
  · intro c hc
    obtain ⟨c0, hc0, rfl⟩ := List.mem_map.mp hc
    exact toUpper_lowerHex c0 (hhex c0 (List.mem_of_mem_take hc0))

/-- Witness for C7 at a concrete 32-character hex draw. -/
theorem dispatch_token_shape_witness :
    ∃ s, dispatch_token "8f14e45fceea167a5a36dedd4bea2543".toList =
      "TRUCK-".toList ++ s ∧ s.length = 6 ∧
      ∀ c ∈ s, c ∈ upperHexDigits :=
  dispatch_token_shape "8f14e45fceea167a5a36dedd4bea2543".toList
    (by decide) (by decide)

/-- C8 counterexample: `create_listing` performs no freshness check on
the generated identifier, so the draw "1" — colliding with a seed
identifier — produces a feed whose identifiers are no longer pairwise
distinct. -/
theorem create_collision_counterexample :
    ¬ (feedIds (create_listing (market_feed 0 0 0)
        { farmer_id := "f", item_name := "Maize", quantity := 10,
          unit := "kg", location_zone := "Kano", price_total := 100 }
        "1" 0).1).Nodup := by decide

/-- C8 amended: the seed identifiers are pairwise distinct, and
distinctness is preserved by `get_market_feed` and by `buy_item`, and by
`create_listing` whenever the freshly generated identifier is not
already present in the feed; `create_listing` itself never checks
freshness. -/
theorem feed_ids_nodup_preserved (t1 t2 t3 : Nat)
    (feed : List MarketListing) (r : ListingRequest) (nid : String)
    (now : Nat) (br : BuyRequest) (u : List Char) :
    (feedIds (market_feed t1 t2 t3)).Nodup ∧
    feedIds (get_market_feed feed) = feedIds feed ∧
    ((feedIds feed).Nodup → nid ∉ feedIds feed →
      (feedIds (create_listing feed r nid now).1).Nodup) ∧
    ((feedIds feed).Nodup → (feedIds (buy_item feed br u).2).Nodup) := by
  refine ⟨?_, rfl, ?_, ?_⟩
  · show (["1", "2", "3"] : List String).Nodup
    decide
  · intro hn hfresh
    simp only [create_listing, feedIds, List.map_cons]
    exact List.nodup_cons.mpr ⟨hfresh, hn⟩
  · intro hn
    simp only [feedIds] at hn ⊢
    exact hn.sublist
      (List.Sublist.map MarketListing.id (buy_snd_sublist feed br u))

/-- Witness for the amended C8: creating with the fresh identifier
"fresh-id" on the seed feed keeps all identifiers distinct. -/
theorem feed_ids_nodup_preserved_witness :
    (feedIds (create_listing (market_feed 0 0 0)
        { farmer_id := "f", item_name := "Maize", quantity := 10,
          unit := "kg", location_zone := "Kano", price_total := 100 }
        "fresh-id" 0).1).Nodup :=
  (feed_ids_nodup_preserved 0 0 0 (market_feed 0 0 0)
      { farmer_id := "f", item_name := "Maize", quantity := 10,
        unit := "kg", location_zone := "Kano", price_total := 100 }
      "fresh-id" 0 { buyer_id := "b", listing_id := "1" } []).2.2.1
    (by decide) (by decide)

/-- C10: `health_check` and `get_market_feed` never modify the feed, a
`create_listing` grows it by exactly one, a successful `buy_item`
shrinks it by exactly one, and an unsuccessful `buy_item` leaves it
unchanged; these are all the operations, so no other size transition
exists. -/
theorem feed_size_transitions (feed : List MarketListing) :
    (∀ now, applyOp feed (Op.health now) = feed) ∧
    applyOp feed Op.listFeed = feed ∧
    (∀ r nid now,
      (applyOp feed (Op.create r nid now)).length = feed.length + 1) ∧
    (∀ r u, ((buy_item feed r u).1).isSuccess = true →
      (applyOp feed (Op.buy r u)).length + 1 = feed.length) ∧
    (∀ r u, ((buy_item feed r u).1).isSuccess = false →
      applyOp feed (Op.buy r u) = feed) := by
  refine ⟨fun _ => rfl, rfl, fun r nid now => rfl, ?_, ?_⟩ <;>
    intro r u <;>
    rcases hf : feed.find? (fun x => x.id == BuyRequest.listing_id r)
      with _ | l
  · intro hs
    simp [buy_item, hf, BuyOutcome.isSuccess] at hs
  · intro hs
    have hmem : l ∈ feed := List.mem_of_find?_eq_some hf
    have hpos : 0 < feed.length := List.length_pos_of_mem hmem
    by_cases ht : l.type = LType.supply
    · simp only [applyOp, buy_item, hf]
      rw [if_neg (by simp [ht])]
      have := List.length_erase_of_mem hmem
      simp only [this]
      omega
    · simp only [buy_item, hf] at hs
      rw [if_pos (by simp [ht])] at hs
      simp [BuyOutcome.isSuccess] at hs
  · intro _
    simp only [applyOp, buy_item, hf]
  · intro hs
    by_cases ht : l.type = LType.supply
    · simp only [buy_item, hf] at hs
      rw [if_neg (by simp [ht])] at hs
      simp [BuyOutcome.isSuccess] at hs
    · simp only [applyOp, buy_item, hf]
      rw [if_pos (by simp [ht])]

/-- Witness for C10: buying supply listing "1" from the seed feed
shrinks it by one; buying demand listing "2" leaves it unchanged. -/
theorem feed_size_transitions_witness :
    (applyOp (market_feed 0 0 0)
        (Op.buy { buyer_id := "b", listing_id := "1" } [])).length + 1 =
      (market_feed 0 0 0).length ∧
    applyOp (market_feed 0 0 0)
        (Op.buy { buyer_id := "b", listing_id := "2" } []) =
      market_feed 0 0 0 :=
  ⟨(feed_size_transitions (market_feed 0 0 0)).2.2.2.1
      { buyer_id := "b", listing_id := "1" } [] (by decide),
    (feed_size_transitions (market_feed 0 0 0)).2.2.2.2
      { buyer_id := "b", listing_id := "2" } [] (by decide)⟩

end AgriLink
